import Mathlib

/-!
Shallow embedding of the go-sync Slack conversation adapter
(`pkg/adapters/slack/conversation/conversation.go`) and the on-call read-only
adapter contract, together with theorems settling the specification claims.

Go maps are modelled as `Option` of an association list: `none` is the nil
map (reads yield zero values, writes panic), `some l` is a non-nil map.
Remote calls are logged in an explicit trace so that claims about which
calls were or were not issued can be stated.  The unbounded pagination
loop is modelled with fuel: `none` as the overall result means the loop
has not terminated within the given fuel.
-/

set_option autoImplicit false

namespace GoSync

/-- Go error values as they matter to the adapter: the sentinel
`ErrCacheEmpty`, the sentinel `ErrReadOnly`, opaque errors coming back from
the Slack client, and `fmt.Errorf("context -> %w", err)` wrapping. -/
inductive GoErr where
  | errCacheEmpty : GoErr
  | errReadOnly : GoErr
  | external : String → GoErr
  | wrap : String → GoErr → GoErr
deriving DecidableEq, Repr

/-- `errors.Is(e, ErrCacheEmpty)`: unwrap through `%w` wrapping. -/
def GoErr.isCacheEmpty : GoErr → Bool
  | .errCacheEmpty => true
  | .wrap _ e => e.isCacheEmpty
  | _ => false

/-- `errors.Is(e, ErrReadOnly)`: unwrap through `%w` wrapping. -/
def GoErr.isReadOnly : GoErr → Bool
  | .errReadOnly => true
  | .wrap _ e => e.isReadOnly
  | _ => false

/-- Outcome of running a Go function: normal return, error return, or a
runtime panic. -/
inductive Outcome (α : Type) where
  | ok : α → Outcome α
  | err : GoErr → Outcome α
  | panic : String → Outcome α
deriving DecidableEq, Repr

/-- A Go `map[string]string` field: `none` is the nil map, `some l` a
non-nil map backed by an association list. -/
abbrev GoMap := Option (List (String × String))

/-- The Go runtime panic message for a write to a nil map. -/
def nilMapMsg : String := "assignment to entry in nil map"

/-- Insert into an association list with Go map semantics: overwrite the
existing entry for the key, otherwise append a new entry. -/
def assocInsert (l : List (String × String)) (k v : String) : List (String × String) :=
  if l.any (fun p => p.1 == k) then l.map (fun p => if p.1 == k then (k, v) else p)
  else l ++ [(k, v)]

/-- `m[k]` read: zero value `""` when the key is absent or the map is nil. -/
def mapLookup : GoMap → String → String
  | none, _ => ""
  | some l, k =>
    match l.find? (fun p => p.1 == k) with
    | some p => p.2
    | none => ""

/-- `_, ok := m[k]`: key presence; always false on the nil map. -/
def mapMem : GoMap → String → Bool
  | none, _ => false
  | some l, k => l.any (fun p => p.1 == k)

/-- `m[k] = v`: `none` result models the nil-map write panic. -/
def mapAssign : GoMap → String → String → Option GoMap
  | none, _, _ => none
  | some l, k, v => some (some (assocInsert l k v))

/-- `delete(m, k)`: a no-op on the nil map. -/
def mapDelete : GoMap → String → GoMap
  | none, _ => none
  | some l, k => some (l.filter (fun p => p.1 != k))

/-- `len(m)`: zero on the nil map. -/
def mapLen : GoMap → Nat
  | none => 0
  | some l => l.length

/-- The fields of `slack.User` the adapter reads: `ID`, `Profile.Email`,
`IsBot`. -/
structure SlackUser where
  id : String
  email : String
  isBot : Bool
deriving DecidableEq, Repr

/-- One remote call issued through the `iSlackConversation` capability
subset, recorded in a trace. -/
inductive RemoteCall where
  | getUsersInConversation : String → String → Nat → RemoteCall
  | getUsersInfo : List String → RemoteCall
  | getUserByEmail : String → RemoteCall
  | inviteUsersToConversation : String → List String → RemoteCall
  | kickUserFromConversation : String → String → RemoteCall
deriving DecidableEq, Repr

/-- The `iSlackConversation` interface: the capability subset of the Slack
client the adapter depends on, modelled as pure response functions
(`getUsersInConversation` takes channel ID, cursor, limit). -/
structure ISlackConversation where
  getUsersInConversation : String → String → Nat → Except GoErr (List String × String)
  getUsersInfo : List String → Except GoErr (List SlackUser)
  getUserByEmail : String → Except GoErr SlackUser
  inviteUsersToConversation : String → List String → Except GoErr Unit
  kickUserFromConversation : String → String → Except GoErr Unit

/-- The `Conversation` adapter state: client, conversation name, and the
email-to-Slack-ID cache (a Go map, hence nil-able). -/
structure Conversation where
  client : ISlackConversation
  conversationName : String
  cache : GoMap

/-- `New`: a fresh adapter starts with a non-nil empty cache
(`make(map[string]string)`). -/
def New (client : ISlackConversation) (channelName : String) : Conversation :=
  { client := client, conversationName := channelName, cache := some [] }

/-- The `for` loop of `getListOfSlackUsernames`, with fuel: each iteration
calls `GetUsersInConversation` with the current cursor and limit 50,
appends the page, and breaks when the returned cursor is `""`.  `none`
means the loop has not terminated within the fuel. -/
def getListLoop (c : Conversation) :
    Nat → String → List String → List RemoteCall →
    Option (Except GoErr (List String) × List RemoteCall)
  | 0, _, _, _ => none
  | fuel + 1, cursor, users, calls =>
    let calls' := calls ++ [RemoteCall.getUsersInConversation c.conversationName cursor 50]
    match c.client.getUsersInConversation c.conversationName cursor 50 with
    | .error e =>
        some (.error (GoErr.wrap ("getusersinconversation(" ++ c.conversationName ++ ")") e), calls')
    | .ok (pageOfUsers, cursor') =>
        let users' := users ++ pageOfUsers
        if cursor' = "" then some (.ok users', calls')
        else getListLoop c fuel cursor' users' calls'

/-- `getListOfSlackUsernames`: paginate from the empty cursor, accumulating
user IDs. -/
def getListOfSlackUsernames (c : Conversation) (fuel : Nat) :
    Option (Except GoErr (List String) × List RemoteCall) :=
  getListLoop c fuel "" [] []

/-- The `for _, user := range *users` loop of `Get`: skip bots, append the
email and write `email -> ID` into the cache (panicking on a nil cache). -/
def getEmailsLoop : List SlackUser → GoMap → List String → Outcome (List String) × GoMap
  | [], cache, emails => (.ok emails, cache)
  | user :: rest, cache, emails =>
    if user.isBot then getEmailsLoop rest cache emails
    else
      match mapAssign cache user.email user.id with
      | none => (.panic nilMapMsg, cache)
      | some cache' => getEmailsLoop rest cache' (emails ++ [user.email])

/-- `Get`: paginate the member list, batch-resolve with `GetUsersInfo`,
filter bots, populate the cache, and return the emails.  The result also
carries the final cache and the trace of remote calls. -/
def Get (c : Conversation) (fuel : Nat) :
    Option (Outcome (List String) × GoMap × List RemoteCall) :=
  match getListOfSlackUsernames c fuel with
  | none => none
  | some (.error e, calls) =>
      some (.err (GoErr.wrap "slack.conversation.get.getlistofslackusernames" e), c.cache, calls)
  | some (.ok slackUsers, calls) =>
    let calls' := calls ++ [RemoteCall.getUsersInfo slackUsers]
    match c.client.getUsersInfo slackUsers with
    | .error e =>
        some (.err (GoErr.wrap "slack.conversation.get.getusersinfo" e), c.cache, calls')
    | .ok users =>
      match getEmailsLoop users c.cache [] with
      | (.ok emails, cache') => some (.ok emails, cache', calls')
      | (.err e, cache') => some (.err e, cache', calls')
      | (.panic msg, cache') => some (.panic msg, cache', calls')

/-- The resolution loop of `Add`: for each email call `GetUserByEmail`,
abort on the first failure, record the ID in `slackIds` and write
`email -> ID` into the cache (panicking on a nil cache). -/
def addLoop (client : ISlackConversation) :
    List String → GoMap → List String → List RemoteCall →
    Outcome (List String) × GoMap × List RemoteCall
  | [], cache, ids, calls => (.ok ids, cache, calls)
  | email :: rest, cache, ids, calls =>
    let calls' := calls ++ [RemoteCall.getUserByEmail email]
    match client.getUserByEmail email with
    | .error e =>
        (.err (GoErr.wrap ("slack.conversation.add.getuserbyemail(" ++ email ++ ")") e), cache, calls')
    | .ok user =>
      match mapAssign cache email user.id with
      | none => (.panic nilMapMsg, cache, calls')
      | some cache' => addLoop client rest cache' (ids ++ [user.id]) calls'

/-- `Add`: resolve every email, then issue one batched
`InviteUsersToConversation` call; on invite failure set the cache to the
nil map (`c.cache = nil`) and return the wrapped error. -/
def Add (c : Conversation) (emails : List String) :
    Outcome Unit × GoMap × List RemoteCall :=
  match addLoop c.client emails c.cache [] [] with
  | (.err e, cache, calls) => (.err e, cache, calls)
  | (.panic msg, cache, calls) => (.panic msg, cache, calls)
  | (.ok ids, cache, calls) =>
    let calls' := calls ++ [RemoteCall.inviteUsersToConversation c.conversationName ids]
    match c.client.inviteUsersToConversation c.conversationName ids with
    | .error e =>
        (.err (GoErr.wrap
          ("slack.conversation.add.inviteuserstoconversation(" ++ c.conversationName ++ ", ...)") e),
          (none : GoMap), calls')
    | .ok _ => (.ok (), cache, calls')

/-- The removal loop of `Remove`: for each email, kick the cached ID
(zero value `""` when absent), abort on the first failure, and on success
delete the cache entry before moving on.  The one-second sleep affects
only wall-clock time and is not modelled. -/
def removeLoop (client : ISlackConversation) (name : String) :
    List String → GoMap → List RemoteCall →
    Outcome Unit × GoMap × List RemoteCall
  | [], cache, calls => (.ok (), cache, calls)
  | email :: rest, cache, calls =>
    let id := mapLookup cache email
    let calls' := calls ++ [RemoteCall.kickUserFromConversation name id]
    match client.kickUserFromConversation name id with
    | .error e =>
        (.err (GoErr.wrap
          ("slack.conversation.remove.kickuserfromconversation(" ++ name ++ ", " ++ id ++ ")") e),
          cache, calls')
    | .ok _ => removeLoop client name rest (mapDelete cache email) calls'

/-- `Remove`: guard on an empty cache with `ErrCacheEmpty`, then run the
removal loop. -/
def Remove (c : Conversation) (emails : List String) :
    Outcome Unit × GoMap × List RemoteCall :=
  if mapLen c.cache = 0 then
    (.err (GoErr.wrap "slack.conversation.remove" GoErr.errCacheEmpty), c.cache, [])
  else removeLoop c.client c.conversationName emails c.cache []

/-- One page-listing response function, as the pagination loop sees the
client: cursor in, page and next cursor (or an error) out. -/
def pageResp (client : ISlackConversation) (name : String) :
    String → Except GoErr (List String × String) :=
  fun cursor => client.getUsersInConversation name cursor 50

/-- `chainRuns resp cursor pages`: starting from `cursor`, the client
answers with exactly the responses in `pages`, each next request using the
cursor returned by the prior page; every cursor is nonempty except the
last, which is empty (so pagination terminates there). -/
def chainRuns (resp : String → Except GoErr (List String × String)) :
    String → List (List String × String) → Prop
  | _, [] => False
  | cursor, (p, c') :: rest =>
    resp cursor = Except.ok (p, c') ∧
    match rest with
    | [] => c' = ""
    | _ :: _ => c' ≠ "" ∧ chainRuns resp c' rest

/-- `chainFails resp cursor pages e`: the responses in `pages` all succeed
with nonempty cursors, and the next request fails with `e`. -/
def chainFails (resp : String → Except GoErr (List String × String)) :
    String → List (List String × String) → GoErr → Prop
  | cursor, [], e => resp cursor = Except.error e
  | cursor, (p, c') :: rest, e =>
    resp cursor = Except.ok (p, c') ∧ c' ≠ "" ∧ chainFails resp c' rest e

/-- The listing calls a chain of page responses gives rise to, in order,
with the cursor each request carries. -/
def chainCalls (name : String) : String → List (List String × String) → List RemoteCall
  | _, [] => []
  | cursor, (_, c') :: rest =>
    RemoteCall.getUsersInConversation name cursor 50 :: chainCalls name c' rest

/-- The listing calls of a failing chain: all successful pages plus the
final failing request. -/
def chainCallsFail (name : String) : String → List (List String × String) → List RemoteCall
  | cursor, [] => [RemoteCall.getUsersInConversation name cursor 50]
  | cursor, (_, c') :: rest =>
    RemoteCall.getUsersInConversation name cursor 50 :: chainCallsFail name c' rest

/-- The union (concatenation) of all pages of a chain. -/
def pagesJoin (pages : List (List String × String)) : List String :=
  (pages.map Prod.fst).flatten

/-- Fold a batch of `email -> id` writes into an association list. -/
def insertAllPairs (m : List (String × String)) (ps : List (String × String)) :
    List (String × String) :=
  ps.foldl (fun acc p => assocInsert acc p.1 p.2) m

/-- The cache writes `Get` performs for a list of resolved users: one per
non-bot user. -/
def userPairs (users : List SlackUser) : List (String × String) :=
  (users.filter (fun u => !u.isBot)).map (fun u => (u.email, u.id))

/-- The ID each email resolves to under a given client (zero value on a
resolution failure; only used where every resolution succeeds). -/
def resolveIds (client : ISlackConversation) (emails : List String) : List String :=
  emails.map (fun email =>
    match client.getUserByEmail email with
    | .ok u => u.id
    | .error _ => "")

/-- The cache writes `Add` performs while resolving a list of emails. -/
def resolvePairs (client : ISlackConversation) (emails : List String) :
    List (String × String) :=
  emails.map (fun email =>
    (email,
      match client.getUserByEmail email with
      | .ok u => u.id
      | .error _ => ""))

/-- Fold a batch of `delete(m, email)` evictions over a Go map. -/
def deleteAll (m : GoMap) (emails : List String) : GoMap :=
  emails.foldl mapDelete m

lemma filter_ne_any_self (l : List (String × String)) (k : String) :
    ((l.filter fun p => p.1 != k).any fun p => p.1 == k) = false := by
  induction l with
  | nil => rfl
  | cons p l ih =>
    by_cases hpk : p.1 = k
    · rw [List.filter_cons_of_neg (by simp [hpk])]
      exact ih
    · rw [List.filter_cons_of_pos (by simp [hpk])]
      simp [List.any_cons, hpk, ih]

lemma filter_ne_any_ne (l : List (String × String)) (k k' : String) (h : k' ≠ k) :
    ((l.filter fun p => p.1 != k).any fun p => p.1 == k')
      = (l.any fun p => p.1 == k') := by
  induction l with
  | nil => rfl
  | cons p l ih =>
    by_cases hpk : p.1 = k
    · rw [List.filter_cons_of_neg (by simp [hpk])]
      have : (p.1 == k') = false := by
        simp only [beq_eq_false_iff_ne, ne_eq, hpk]
        exact fun hc => h hc.symm
      simp [List.any_cons, this, ih]
    · rw [List.filter_cons_of_pos (by simp [hpk])]
      simp [List.any_cons, ih]

lemma filter_ne_find_ne (l : List (String × String)) (k k' : String) (h : k' ≠ k) :
    ((l.filter fun p => p.1 != k).find? fun p => p.1 == k')
      = (l.find? fun p => p.1 == k') := by
  induction l with
  | nil => rfl
  | cons p l ih =>
    by_cases hpk : p.1 = k
    · rw [List.filter_cons_of_neg (by simp [hpk])]
      have hne : (p.1 == k') = false := by
        simp only [beq_eq_false_iff_ne, ne_eq, hpk]
        exact fun hc => h hc.symm
      rw [List.find?_cons_of_neg _ (by simp [hne]), ih]
    · rw [List.filter_cons_of_pos (by simp [hpk])]
      by_cases hpk' : p.1 = k'
      · rw [List.find?_cons_of_pos _ (by simp [hpk']),
          List.find?_cons_of_pos _ (by simp [hpk'])]
      · rw [List.find?_cons_of_neg _ (by simp [hpk']),
          List.find?_cons_of_neg _ (by simp [hpk']), ih]

lemma mapMem_delete_self (g : GoMap) (k : String) :
    mapMem (mapDelete g k) k = false := by
  cases g with
  | none => rfl
  | some l => exact filter_ne_any_self l k

lemma mapMem_delete_ne (g : GoMap) (k k' : String) (h : k' ≠ k) :
    mapMem (mapDelete g k) k' = mapMem g k' := by
  cases g with
  | none => rfl
  | some l => exact filter_ne_any_ne l k k' h

lemma mapLookup_delete_ne (g : GoMap) (k k' : String) (h : k' ≠ k) :
    mapLookup (mapDelete g k) k' = mapLookup g k' := by
  cases g with
  | none => rfl
  | some l =>
    simp only [mapDelete, mapLookup]
    rw [filter_ne_find_ne l k k' h]

lemma mapMem_deleteAll_of_false (g : GoMap) (es : List String) (k : String)
    (h : mapMem g k = false) : mapMem (deleteAll g es) k = false := by
  induction es generalizing g with
  | nil => exact h
  | cons e es ih =>
    simp only [deleteAll, List.foldl] at *
    refine ih _ ?_
    by_cases hke : k = e
    · rw [hke]; exact mapMem_delete_self g e
    · rw [mapMem_delete_ne g e k hke]; exact h

lemma mapMem_deleteAll_mem (g : GoMap) (es : List String) (k : String)
    (h : k ∈ es) : mapMem (deleteAll g es) k = false := by
  induction es generalizing g with
  | nil => cases h
  | cons e es ih =>
    simp only [deleteAll, List.foldl] at *
    rcases List.mem_cons.mp h with h | h
    · subst h
      exact mapMem_deleteAll_of_false _ _ _ (mapMem_delete_self g k)
    · exact ih _ h

lemma mapMem_deleteAll_notMem (g : GoMap) (es : List String) (k : String)
    (h : k ∉ es) : mapMem (deleteAll g es) k = mapMem g k := by
  induction es generalizing g with
  | nil => rfl
  | cons e es ih =>
    simp only [deleteAll, List.foldl] at *
    rw [ih _ fun hc => h (List.mem_cons_of_mem _ hc),
      mapMem_delete_ne _ _ _ fun hc => h (by rw [hc]; exact List.mem_cons_self _ _)]

lemma mapLookup_deleteAll_notMem (g : GoMap) (es : List String) (k : String)
    (h : k ∉ es) : mapLookup (deleteAll g es) k = mapLookup g k := by
  induction es generalizing g with
  | nil => rfl
  | cons e es ih =>
    simp only [deleteAll, List.foldl] at *
    rw [ih _ fun hc => h (List.mem_cons_of_mem _ hc),
      mapLookup_delete_ne _ _ _ fun hc => h (by rw [hc]; exact List.mem_cons_self _ _)]

lemma pagesJoin_cons (p : List String) (c' : String) (rest : List (List String × String)) :
    pagesJoin ((p, c') :: rest) = p ++ pagesJoin rest := by
  simp [pagesJoin]

lemma getListLoop_step_ok (c : Conversation) (fuel : Nat) (cursor : String)
    (users : List String) (calls : List RemoteCall) (p : List String) (c' : String)
    (h : c.client.getUsersInConversation c.conversationName cursor 50 = Except.ok (p, c')) :
    getListLoop c (fuel + 1) cursor users calls
      = if c' = "" then
          some (.ok (users ++ p),
            calls ++ [RemoteCall.getUsersInConversation c.conversationName cursor 50])
        else getListLoop c fuel c' (users ++ p)
          (calls ++ [RemoteCall.getUsersInConversation c.conversationName cursor 50]) := by
  simp only [getListLoop, h]

lemma getListLoop_step_err (c : Conversation) (fuel : Nat) (cursor : String)
    (users : List String) (calls : List RemoteCall) (e : GoErr)
    (h : c.client.getUsersInConversation c.conversationName cursor 50 = Except.error e) :
    getListLoop c (fuel + 1) cursor users calls
      = some (.error (GoErr.wrap
            ("getusersinconversation(" ++ c.conversationName ++ ")") e),
          calls ++ [RemoteCall.getUsersInConversation c.conversationName cursor 50]) := by
  simp only [getListLoop, h]

lemma getListLoop_chainRuns (c : Conversation) (pages : List (List String × String))
    (cursor : String) (users : List String) (calls : List RemoteCall)
    (h : chainRuns (pageResp c.client c.conversationName) cursor pages) :
    getListLoop c pages.length cursor users calls
      = some (.ok (users ++ pagesJoin pages),
          calls ++ chainCalls c.conversationName cursor pages) := by
  induction pages generalizing cursor users calls with
  | nil => cases h
  | cons page rest ih =>
    obtain ⟨p, c'⟩ := page
    obtain ⟨hresp, hrest⟩ := h
    have hresp' : c.client.getUsersInConversation c.conversationName cursor 50
        = Except.ok (p, c') := hresp
    rw [List.length_cons, getListLoop_step_ok c rest.length cursor users calls p c' hresp']
    cases rest with
    | nil =>
      have hc : c' = "" := hrest
      subst hc
      simp [pagesJoin_cons, pagesJoin, chainCalls]
    | cons q rest' =>
      obtain ⟨hne, hchain⟩ := hrest
      rw [if_neg hne, ih c' (users ++ p) _ hchain]
      simp [pagesJoin_cons, chainCalls, List.append_assoc]

lemma getListLoop_chainFails (c : Conversation) (pages : List (List String × String))
    (cursor : String) (users : List String) (calls : List RemoteCall) (e : GoErr)
    (h : chainFails (pageResp c.client c.conversationName) cursor pages e) :
    getListLoop c (pages.length + 1) cursor users calls
      = some (.error (GoErr.wrap
            ("getusersinconversation(" ++ c.conversationName ++ ")") e),
          calls ++ chainCallsFail c.conversationName cursor pages) := by
  induction pages generalizing cursor users calls with
  | nil =>
    have hresp' : c.client.getUsersInConversation c.conversationName cursor 50
        = Except.error e := h
    rw [List.length_nil, getListLoop_step_err c 0 cursor users calls e hresp']
    simp [chainCallsFail]
  | cons page rest ih =>
    obtain ⟨p, c'⟩ := page
    obtain ⟨hresp, hne, hchain⟩ := h
    have hresp' : c.client.getUsersInConversation c.conversationName cursor 50
        = Except.ok (p, c') := hresp
    rw [List.length_cons,
      getListLoop_step_ok c (rest.length + 1) cursor users calls p c' hresp',
      if_neg hne, ih c' (users ++ p) _ hchain]
    simp [chainCallsFail, List.append_assoc]

/-- If every page response has a nonempty next cursor and no page errors,
the pagination loop does not terminate within any amount of fuel: the
empty cursor is the only exit of the loop. -/
lemma getListLoop_no_empty_cursor (c : Conversation)
    (h : ∀ cursor, ∃ p c', pageResp c.client c.conversationName cursor
        = Except.ok (p, c') ∧ c' ≠ "") :
    ∀ fuel cursor users calls, getListLoop c fuel cursor users calls = none := by
  intro fuel
  induction fuel with
  | zero => intro cursor users calls; rfl
  | succ fuel ih =>
    intro cursor users calls
    obtain ⟨p, c', hresp, hne⟩ := h cursor
    have hresp' : c.client.getUsersInConversation c.conversationName cursor 50
        = Except.ok (p, c') := hresp
    simp only [getListLoop, hresp', if_neg hne]
    exact ih c' _ _

lemma getEmailsLoop_some (users : List SlackUser) (m : List (String × String))
    (emails : List String) :
    getEmailsLoop users (some m) emails
      = (.ok (emails ++ (users.filter (fun u => !u.isBot)).map SlackUser.email),
         some (insertAllPairs m (userPairs users))) := by
  induction users generalizing m emails with
  | nil => simp [getEmailsLoop, insertAllPairs, userPairs]
  | cons u rest ih =>
    by_cases hb : u.isBot
    · simp only [getEmailsLoop, if_pos hb]
      rw [ih]
      simp [userPairs, List.filter_cons, hb]
    · simp only [getEmailsLoop, if_neg hb, mapAssign]
      rw [ih]
      simp [userPairs, insertAllPairs, List.filter_cons, hb, List.append_assoc]

lemma getEmailsLoop_none_panic (users : List SlackUser) (emails : List String)
    (h : ∃ u ∈ users, u.isBot = false) :
    getEmailsLoop users none emails = (.panic nilMapMsg, none) := by
  induction users generalizing emails with
  | nil => obtain ⟨u, hu, _⟩ := h; cases hu
  | cons u rest ih =>
    by_cases hb : u.isBot
    · have h' : ∃ v ∈ rest, v.isBot = false := by
        obtain ⟨v, hv, hvb⟩ := h
        rcases List.mem_cons.mp hv with hv | hv
        · rw [hv] at hvb; rw [hvb] at hb; cases hb
        · exact ⟨v, hv, hvb⟩
      simp only [getEmailsLoop, if_pos hb]
      exact ih _ h'
    · simp [getEmailsLoop, hb, mapAssign]

lemma addLoop_allOk (client : ISlackConversation) (emails : List String)
    (m : List (String × String)) (ids : List String) (calls : List RemoteCall)
    (h : ∀ email ∈ emails, ∃ u, client.getUserByEmail email = Except.ok u) :
    addLoop client emails (some m) ids calls
      = (.ok (ids ++ resolveIds client emails),
         some (insertAllPairs m (resolvePairs client emails)),
         calls ++ emails.map RemoteCall.getUserByEmail) := by
  induction emails generalizing m ids calls with
  | nil => simp [addLoop, resolveIds, resolvePairs, insertAllPairs]
  | cons email rest ih =>
    obtain ⟨u, hu⟩ := h email (List.mem_cons_self _ _)
    simp only [addLoop, hu, mapAssign]
    rw [ih _ _ _ fun e he => h e (List.mem_cons_of_mem _ he)]
    simp [resolveIds, resolvePairs, insertAllPairs, hu, List.append_assoc]

lemma addLoop_failAt (client : ISlackConversation) (pre : List String) (bad : String)
    (post : List String) (m : List (String × String)) (ids : List String)
    (calls : List RemoteCall) (e : GoErr)
    (hpre : ∀ email ∈ pre, ∃ u, client.getUserByEmail email = Except.ok u)
    (hbad : client.getUserByEmail bad = Except.error e) :
    addLoop client (pre ++ bad :: post) (some m) ids calls
      = (.err (GoErr.wrap ("slack.conversation.add.getuserbyemail(" ++ bad ++ ")") e),
         some (insertAllPairs m (resolvePairs client pre)),
         calls ++ pre.map RemoteCall.getUserByEmail ++ [RemoteCall.getUserByEmail bad]) := by
  induction pre generalizing m ids calls with
  | nil => simp [addLoop, hbad, resolvePairs, insertAllPairs]
  | cons email rest ih =>
    obtain ⟨u, hu⟩ := hpre email (List.mem_cons_self _ _)
    simp only [List.cons_append, addLoop, hu, mapAssign]
    rw [show (rest.append (bad :: post)) = rest ++ bad :: post from rfl,
      ih _ _ _ fun e' he => hpre e' (List.mem_cons_of_mem _ he)]
    simp [resolvePairs, insertAllPairs, hu, List.append_assoc]

lemma removeLoop_failAt (client : ISlackConversation) (name : String)
    (pre : List String) (bad : String) (post : List String) (g : GoMap)
    (calls : List RemoteCall) (e : GoErr)
    (hnodup : pre.Nodup) (hbadpre : bad ∉ pre)
    (hpre : ∀ email ∈ pre,
      client.kickUserFromConversation name (mapLookup g email) = Except.ok ())
    (hbad : client.kickUserFromConversation name (mapLookup g bad) = Except.error e) :
    removeLoop client name (pre ++ bad :: post) g calls
      = (.err (GoErr.wrap
            ("slack.conversation.remove.kickuserfromconversation(" ++ name ++ ", "
              ++ mapLookup g bad ++ ")") e),
         deleteAll g pre,
         calls
           ++ pre.map (fun email =>
                RemoteCall.kickUserFromConversation name (mapLookup g email))
           ++ [RemoteCall.kickUserFromConversation name (mapLookup g bad)]) := by
  induction pre generalizing g calls with
  | nil => simp [removeLoop, hbad, deleteAll]
  | cons email rest ih =>
    have hk : client.kickUserFromConversation name (mapLookup g email) = Except.ok () :=
      hpre email (List.mem_cons_self _ _)
    have hemail : email ∉ rest := (List.nodup_cons.mp hnodup).1
    have hbadne : bad ≠ email := fun hc => hbadpre (by rw [hc]; exact List.mem_cons_self _ _)
    have hlookbad : mapLookup (mapDelete g email) bad = mapLookup g bad :=
      mapLookup_delete_ne g email bad hbadne
    have hlookrest : ∀ e' ∈ rest, mapLookup (mapDelete g email) e' = mapLookup g e' := by
      intro e' he'
      exact mapLookup_delete_ne g email e' fun hc => hemail (hc ▸ he')
    simp only [List.cons_append, removeLoop, hk]
    rw [show (rest.append (bad :: post)) = rest ++ bad :: post from rfl,
      ih (mapDelete g email) _
      (List.nodup_cons.mp hnodup).2
      (fun hc => hbadpre (List.mem_cons_of_mem _ hc))
      (fun e' he' => by rw [hlookrest e' he']; exact hpre e' (List.mem_cons_of_mem _ he'))
      (by rw [hlookbad]; exact hbad)]
    rw [hlookbad]
    have hmap : rest.map (fun e' =>
          RemoteCall.kickUserFromConversation name (mapLookup (mapDelete g email) e'))
        = rest.map (fun e' =>
          RemoteCall.kickUserFromConversation name (mapLookup g e')) := by
      apply List.map_congr_left
      intro e' he'
      rw [hlookrest e' he']
    rw [hmap]
    simp [deleteAll, List.append_assoc]

lemma any_map_overwrite (l : List (String × String)) (k v k' : String) :
    ((l.map fun p => if p.1 == k then (k, v) else p).any fun p => p.1 == k')
      = (l.any fun p => p.1 == k') := by
  induction l with
  | nil => rfl
  | cons p l ih =>
    by_cases hpk : p.1 = k
    · rw [List.map_cons, List.any_cons, List.any_cons, ih]
      simp [hpk]
    · have hb : (p.1 == k) = false := by simp [hpk]
      rw [List.map_cons, List.any_cons, List.any_cons, ih]
      simp [hb, hpk]

lemma any_assocInsert (l : List (String × String)) (k v k' : String) :
    ((assocInsert l k v).any fun p => p.1 == k')
      = ((l.any fun p => p.1 == k') || k == k') := by
  by_cases hany : (l.any fun p => p.1 == k) = true
  · rw [assocInsert, if_pos hany, any_map_overwrite]
    by_cases hk : k = k'
    · subst hk
      simp [hany]
    · have : (k == k') = false := by simp [hk]
      simp [this]
  · rw [assocInsert, if_neg hany]
    simp [List.any_append, List.any_cons]

lemma mapMem_insertAllPairs (m ps : List (String × String)) (k : String) :
    mapMem (some (insertAllPairs m ps)) k
      = (mapMem (some m) k || ps.any fun p => p.1 == k) := by
  induction ps generalizing m with
  | nil => simp [insertAllPairs, mapMem]
  | cons p ps ih =>
    simp only [insertAllPairs, List.foldl] at *
    rw [ih (assocInsert m p.1 p.2)]
    simp only [mapMem, any_assocInsert, List.any_cons]
    rw [Bool.or_assoc, Bool.or_comm (p.1 == k)]

/-- One remote call through the Opsgenie schedule client capability the
on-call adapter consumes. -/
inductive OpsgenieCall where
  | getOnCalls : String → OpsgenieCall
deriving DecidableEq, Repr

/-- Modelled from the spec: the read-only on-call adapter state.  The
adapter source (`adapters/opsgenie/oncall/oncall.go`) is not in the
corpus; only its internal test is.  Per the spec it exposes the same
three-operation shape over a fixed schedule identifier. -/
structure OnCall where
  scheduleID : String

/-- Modelled from the spec: `Add` on the read-only on-call adapter
unconditionally fails with a ReadOnly error and performs zero remote calls
(the internal test `TestOnCall_Add` asserts `gosync.ErrReadOnly` and zero
client calls). -/
def OnCall.Add (_o : OnCall) (_emails : List String) :
    Outcome Unit × List OpsgenieCall :=
  (.err GoErr.errReadOnly, [])

/-- Modelled from the spec: `Remove` on the read-only on-call adapter
unconditionally fails with a ReadOnly error and performs zero remote calls
(the internal test `TestOnCall_Remove` asserts `gosync.ErrReadOnly` and
zero client calls). -/
def OnCall.Remove (_o : OnCall) (_emails : List String) :
    Outcome Unit × List OpsgenieCall :=
  (.err GoErr.errReadOnly, [])

/-- A human member used by concrete instances. -/
def demoUserA : SlackUser := { id := "U1", email := "a@x.com", isBot := false }

/-- A second human member used by concrete instances. -/
def demoUserB : SlackUser := { id := "U2", email := "b@x.com", isBot := false }

/-- A bot account used by concrete instances. -/
def demoUserBot : SlackUser := { id := "U9", email := "bot@x.com", isBot := true }

/-- A well-behaved two-page client: page one returns `U1` with cursor
`next`, page two returns `U9` with the empty cursor; user info resolves to
one human and one bot; every mutation succeeds. -/
def demoClient : ISlackConversation where
  getUsersInConversation := fun _ cursor _ =>
    if cursor = "" then .ok (["U1"], "next") else .ok (["U9"], "")
  getUsersInfo := fun _ => .ok [demoUserA, demoUserBot]
  getUserByEmail := fun email =>
    if email = "a@x.com" then .ok demoUserA
    else if email = "b@x.com" then .ok demoUserB
    else .error (GoErr.external "users_not_found")
  inviteUsersToConversation := fun _ _ => .ok ()
  kickUserFromConversation := fun _ _ => .ok ()

/-- A client whose listing never returns an empty cursor. -/
def loopingClient : ISlackConversation :=
  { demoClient with getUsersInConversation := fun _ _ _ => .ok ([], "again") }

/-- A client whose second listing page fails. -/
def pageFailClient : ISlackConversation :=
  { demoClient with
    getUsersInConversation := fun _ cursor _ =>
      if cursor = "" then .ok (["U1"], "next")
      else .error (GoErr.external "rate_limited") }

/-- A client whose batch identity resolution fails. -/
def infoFailClient : ISlackConversation :=
  { demoClient with getUsersInfo := fun _ => .error (GoErr.external "users_not_found") }

/-- A client whose batched invite call fails. -/
def inviteFailClient : ISlackConversation :=
  { demoClient with
    getUsersInConversation := fun _ _ _ => .ok (["U1"], ""),
    getUsersInfo := fun _ => .ok [demoUserA],
    inviteUsersToConversation := fun _ _ => .error (GoErr.external "not_in_channel") }

/-- A client whose removal call fails for the user with ID `U2`. -/
def kickFailClient : ISlackConversation :=
  { demoClient with
    kickUserFromConversation := fun _ uid =>
      if uid = "U2" then .error (GoErr.external "cant_kick_user") else .ok () }

lemma any_userPairs (users : List SlackUser) (k : String) :
    ((userPairs users).any fun p => p.1 == k)
      = (users.filter fun u => !u.isBot).any fun v => v.email == k := by
  rw [userPairs]
  induction (users.filter fun u => !u.isBot) with
  | nil => rfl
  | cons v l ih => simp [List.any_cons, ih]

/-- C3: `Remove` called while the identity cache has zero entries returns
a wrapped `ErrCacheEmpty` error, issues zero remote calls, and leaves the
cache unchanged. -/
theorem remove_empty_cache_errors (client : ISlackConversation) (name : String)
    (cache0 : GoMap) (emails : List String) (h : mapLen cache0 = 0) :
    Remove ⟨client, name, cache0⟩ emails
      = (.err (GoErr.wrap "slack.conversation.remove" GoErr.errCacheEmpty), cache0, [])
    ∧ GoErr.isCacheEmpty
        (GoErr.wrap "slack.conversation.remove" GoErr.errCacheEmpty) = true :=
  ⟨by simp [Remove, h], rfl⟩

/-- Witness for C3: a fresh adapter with an empty cache and a concrete
email list. -/
theorem remove_empty_cache_errors_witness :
    Remove ⟨demoClient, "CONV", some []⟩ ["a@x.com"]
      = (.err (GoErr.wrap "slack.conversation.remove" GoErr.errCacheEmpty), some [], [])
    ∧ GoErr.isCacheEmpty
        (GoErr.wrap "slack.conversation.remove" GoErr.errCacheEmpty) = true :=
  remove_empty_cache_errors demoClient "CONV" (some []) ["a@x.com"] rfl

/-- C9: `Add` and `Remove` on the read-only on-call adapter return a
ReadOnly error and perform zero remote calls for every non-empty input
list. -/
theorem oncall_readonly_rejects_mutation (o : OnCall) (emails : List String)
    (_hne : emails ≠ []) :
    OnCall.Add o emails = (.err GoErr.errReadOnly, [])
    ∧ OnCall.Remove o emails = (.err GoErr.errReadOnly, [])
    ∧ GoErr.isReadOnly GoErr.errReadOnly = true :=
  ⟨rfl, rfl, rfl⟩

/-- Witness for C9: the concrete input of the internal tests of the adapter. -/
theorem oncall_readonly_rejects_mutation_witness :
    OnCall.Add ⟨"test"⟩ ["example@bar.com"] = (.err GoErr.errReadOnly, [])
    ∧ OnCall.Remove ⟨"test"⟩ ["example@bar.com"] = (.err GoErr.errReadOnly, [])
    ∧ GoErr.isReadOnly GoErr.errReadOnly = true :=
  oncall_readonly_rejects_mutation ⟨"test"⟩ ["example@bar.com"]
    (List.cons_ne_nil _ _)

/-- C7: pagination starts with the empty cursor, requests each subsequent
page with exactly the cursor returned by the prior page (the call trace is
the cursor chain), terminates after the first page whose returned cursor
is empty regardless of remaining data, and the empty cursor is the only
termination condition of the loop: a client that never returns one keeps the loop
running for any amount of fuel. -/
theorem pagination_cursor_chain (client : ISlackConversation) (name : String)
    (cache0 : GoMap) :
    (∀ pages, chainRuns (pageResp client name) "" pages →
        getListOfSlackUsernames ⟨client, name, cache0⟩ pages.length
          = some (.ok (pagesJoin pages), chainCalls name "" pages))
    ∧ ((∀ cursor, ∃ p c', pageResp client name cursor = Except.ok (p, c') ∧ c' ≠ "") →
        ∀ fuel, getListOfSlackUsernames ⟨client, name, cache0⟩ fuel = none) := by
  constructor
  · intro pages hchain
    have h := getListLoop_chainRuns ⟨client, name, cache0⟩ pages "" [] [] hchain
    simpa [getListOfSlackUsernames] using h
  · intro h fuel
    exact getListLoop_no_empty_cursor ⟨client, name, cache0⟩ h fuel "" [] []

/-- Witness for C7: the two-page client follows the cursor chain
`"" -> "next" -> ""` and stops; the cursor-less client loops forever. -/
theorem pagination_cursor_chain_witness :
    getListOfSlackUsernames ⟨demoClient, "CONV", some []⟩ 2
      = some (.ok ["U1", "U9"],
          [RemoteCall.getUsersInConversation "CONV" "" 50,
           RemoteCall.getUsersInConversation "CONV" "next" 50])
    ∧ getListOfSlackUsernames ⟨loopingClient, "CONV", some []⟩ 5 = none := by
  constructor
  · have h := (pagination_cursor_chain demoClient "CONV" (some [])).1
      [(["U1"], "next"), (["U9"], "")] ⟨rfl, by decide, rfl, rfl⟩
    simpa [pagesJoin, chainCalls] using h
  · exact (pagination_cursor_chain loopingClient "CONV" (some [])).2
      (fun cursor => ⟨[], "again", rfl, by decide⟩) 5

/-- C2: when every email resolves but the batched invite call fails, `Add`
returns a wrapped non-nil error and leaves the identity cache with no
entry for any email (it is discarded wholesale), even though the per-email
resolutions had already populated it before the invite. -/
theorem add_invite_failure_empties_cache (client : ISlackConversation)
    (name : String) (m : List (String × String)) (emails : List String) (e : GoErr)
    (hres : ∀ email ∈ emails, ∃ u, client.getUserByEmail email = Except.ok u)
    (hinv : client.inviteUsersToConversation name (resolveIds client emails)
      = Except.error e) :
    Add ⟨client, name, some m⟩ emails
      = (.err (GoErr.wrap
            ("slack.conversation.add.inviteuserstoconversation(" ++ name ++ ", ...)") e),
          none,
          emails.map RemoteCall.getUserByEmail
            ++ [RemoteCall.inviteUsersToConversation name (resolveIds client emails)])
    ∧ (∀ email, mapMem (Add ⟨client, name, some m⟩ emails).2.1 email = false)
    ∧ mapLen (Add ⟨client, name, some m⟩ emails).2.1 = 0 := by
  have hloop := addLoop_allOk client emails m [] [] hres
  have hAdd : Add ⟨client, name, some m⟩ emails
      = (.err (GoErr.wrap
            ("slack.conversation.add.inviteuserstoconversation(" ++ name ++ ", ...)") e),
          none,
          emails.map RemoteCall.getUserByEmail
            ++ [RemoteCall.inviteUsersToConversation name (resolveIds client emails)]) := by
    simp only [Add, hloop, List.nil_append, hinv]
  refine ⟨hAdd, ?_, ?_⟩
  · intro email
    rw [hAdd]
    rfl
  · rw [hAdd]
    rfl

/-- Witness for C2: one email resolves to `U1`, the invite fails, and the
cache comes back with no entries. -/
theorem add_invite_failure_empties_cache_witness :
    Add ⟨inviteFailClient, "CONV", some []⟩ ["a@x.com"]
      = (.err (GoErr.wrap
            ("slack.conversation.add.inviteuserstoconversation(" ++ "CONV" ++ ", ...)")
            (GoErr.external "not_in_channel")),
          none,
          List.map RemoteCall.getUserByEmail ["a@x.com"]
            ++ [RemoteCall.inviteUsersToConversation "CONV"
                  (resolveIds inviteFailClient ["a@x.com"])])
    ∧ (∀ email,
        mapMem (Add ⟨inviteFailClient, "CONV", some []⟩ ["a@x.com"]).2.1 email = false)
    ∧ mapLen (Add ⟨inviteFailClient, "CONV", some []⟩ ["a@x.com"]).2.1 = 0 :=
  add_invite_failure_empties_cache inviteFailClient "CONV" [] ["a@x.com"]
    (GoErr.external "not_in_channel")
    (fun email hm => by
      rw [List.mem_singleton] at hm
      subst hm
      exact ⟨demoUserA, rfl⟩)
    rfl

/-- C6: whenever a pagination page fails, or the batched identity
resolution fails, `Get` returns no result with a wrapped non-nil error and
the cache is exactly what it was before the call. -/
theorem get_error_leaves_cache_unchanged (client : ISlackConversation)
    (name : String) (cache0 : GoMap) :
    (∀ pages e, chainFails (pageResp client name) "" pages e →
        Get ⟨client, name, cache0⟩ (pages.length + 1)
          = some (.err (GoErr.wrap "slack.conversation.get.getlistofslackusernames"
                (GoErr.wrap ("getusersinconversation(" ++ name ++ ")") e)),
              cache0, chainCallsFail name "" pages))
    ∧ (∀ pages e, chainRuns (pageResp client name) "" pages →
        client.getUsersInfo (pagesJoin pages) = Except.error e →
        Get ⟨client, name, cache0⟩ pages.length
          = some (.err (GoErr.wrap "slack.conversation.get.getusersinfo" e),
              cache0,
              chainCalls name "" pages ++ [RemoteCall.getUsersInfo (pagesJoin pages)])) := by
  constructor
  · intro pages e hchain
    have hlist := getListLoop_chainFails ⟨client, name, cache0⟩ pages "" [] [] e hchain
    simp only [Get, getListOfSlackUsernames, hlist, List.nil_append]
  · intro pages e hchain hinfo
    have hlist := getListLoop_chainRuns ⟨client, name, cache0⟩ pages "" [] [] hchain
    simp only [Get, getListOfSlackUsernames, hlist, List.nil_append, hinfo]

/-- Witness for C6: a second-page failure and an identity-resolution
failure, each leaving the prior cache intact. -/
theorem get_error_leaves_cache_unchanged_witness :
    Get ⟨pageFailClient, "CONV", some [("z@x.com", "U7")]⟩ 2
      = some (.err (GoErr.wrap "slack.conversation.get.getlistofslackusernames"
            (GoErr.wrap ("getusersinconversation(" ++ "CONV" ++ ")")
              (GoErr.external "rate_limited"))),
          some [("z@x.com", "U7")], chainCallsFail "CONV" "" [(["U1"], "next")])
    ∧ Get ⟨infoFailClient, "CONV", some [("z@x.com", "U7")]⟩ 2
      = some (.err (GoErr.wrap "slack.conversation.get.getusersinfo"
            (GoErr.external "users_not_found")),
          some [("z@x.com", "U7")],
          chainCalls "CONV" "" [(["U1"], "next"), (["U9"], "")]
            ++ [RemoteCall.getUsersInfo
                  (pagesJoin [(["U1"], "next"), (["U9"], "")])]) := by
  constructor
  · exact (get_error_leaves_cache_unchanged pageFailClient "CONV"
      (some [("z@x.com", "U7")])).1 [(["U1"], "next")] (GoErr.external "rate_limited")
      ⟨rfl, by decide, rfl⟩
  · exact (get_error_leaves_cache_unchanged infoFailClient "CONV"
      (some [("z@x.com", "U7")])).2 [(["U1"], "next"), (["U9"], "")]
      (GoErr.external "users_not_found") ⟨rfl, by decide, rfl, rfl⟩ rfl

/-- C1: for every page sequence terminated by an empty cursor, `Get`
returns exactly the emails of the non-bot users resolved from the union of
all pages, records `email -> identifier` in the cache for each non-bot
user, and excludes bot accounts from both the returned list and the cache
(a bot email is in the final cache only if it was already cached or a
non-bot user carries the same email). -/
theorem fetch_returns_nonbot_emails_and_caches (client : ISlackConversation)
    (name : String) (m : List (String × String))
    (pages : List (List String × String)) (users : List SlackUser)
    (hchain : chainRuns (pageResp client name) "" pages)
    (hinfo : client.getUsersInfo (pagesJoin pages) = Except.ok users) :
    Get ⟨client, name, some m⟩ pages.length
      = some (.ok ((users.filter fun u => !u.isBot).map SlackUser.email),
          some (insertAllPairs m (userPairs users)),
          chainCalls name "" pages ++ [RemoteCall.getUsersInfo (pagesJoin pages)])
    ∧ (∀ u ∈ users, u.isBot = false →
        mapMem (some (insertAllPairs m (userPairs users))) u.email = true)
    ∧ (∀ u ∈ users,
        mapMem (some (insertAllPairs m (userPairs users))) u.email
          = (mapMem (some m) u.email
              || (users.filter fun v => !v.isBot).any fun v => v.email == u.email)) := by
  refine ⟨?_, ?_, ?_⟩
  · have hlist := getListLoop_chainRuns ⟨client, name, some m⟩ pages "" [] [] hchain
    have hloop := getEmailsLoop_some users m []
    simp only [Get, getListOfSlackUsernames, hlist, List.nil_append, hinfo, hloop]
  · intro u hu hb
    rw [mapMem_insertAllPairs]
    have hmem : (u.email, u.id) ∈ userPairs users := by
      apply List.mem_map_of_mem
      rw [List.mem_filter]
      exact ⟨hu, by rw [hb]; rfl⟩
    have hany : (userPairs users).any (fun p => p.1 == u.email) = true := by
      rw [List.any_eq_true]
      exact ⟨(u.email, u.id), hmem, by simp⟩
    rw [hany, Bool.or_true]
  · intro u hu
    rw [mapMem_insertAllPairs]
    congr 1
    exact any_userPairs users u.email

/-- Witness for C1: two pages of one human and one bot; the email of
the human is returned and cached, that of the bot is neither. -/
theorem fetch_returns_nonbot_emails_and_caches_witness :
    Get ⟨demoClient, "CONV", some []⟩ 2
      = some (.ok ["a@x.com"], some [("a@x.com", "U1")],
          [RemoteCall.getUsersInConversation "CONV" "" 50,
           RemoteCall.getUsersInConversation "CONV" "next" 50,
           RemoteCall.getUsersInfo ["U1", "U9"]])
    ∧ mapMem (some [("a@x.com", "U1")]) "a@x.com" = true
    ∧ mapMem (some [("a@x.com", "U1")]) "bot@x.com" = false := by
  obtain ⟨h1, h2, h3⟩ := fetch_returns_nonbot_emails_and_caches demoClient "CONV" []
    [(["U1"], "next"), (["U9"], "")] [demoUserA, demoUserBot]
    ⟨rfl, by decide, rfl, rfl⟩ rfl
  refine ⟨?_, ?_, ?_⟩
  · exact h1
  · exact h2 demoUserA (List.mem_cons_self _ _) rfl
  · exact h3 demoUserBot (by simp)

/-- C5: if any per-email resolution fails, `Add` aborts immediately with
that error after resolving exactly the earlier emails; the batched invite
call is never issued and no mutating call of any kind appears in the
trace. -/
theorem add_resolution_failure_aborts_before_invite (client : ISlackConversation)
    (name : String) (m : List (String × String)) (pre : List String) (bad : String)
    (post : List String) (e : GoErr)
    (hpre : ∀ email ∈ pre, ∃ u, client.getUserByEmail email = Except.ok u)
    (hbad : client.getUserByEmail bad = Except.error e) :
    Add ⟨client, name, some m⟩ (pre ++ bad :: post)
      = (.err (GoErr.wrap ("slack.conversation.add.getuserbyemail(" ++ bad ++ ")") e),
          some (insertAllPairs m (resolvePairs client pre)),
          pre.map RemoteCall.getUserByEmail ++ [RemoteCall.getUserByEmail bad])
    ∧ (∀ ch ids, RemoteCall.inviteUsersToConversation ch ids
        ∉ (Add ⟨client, name, some m⟩ (pre ++ bad :: post)).2.2)
    ∧ (∀ ch uid, RemoteCall.kickUserFromConversation ch uid
        ∉ (Add ⟨client, name, some m⟩ (pre ++ bad :: post)).2.2) := by
  have hloop := addLoop_failAt client pre bad post m [] [] e hpre hbad
  have hAdd : Add ⟨client, name, some m⟩ (pre ++ bad :: post)
      = (.err (GoErr.wrap ("slack.conversation.add.getuserbyemail(" ++ bad ++ ")") e),
          some (insertAllPairs m (resolvePairs client pre)),
          pre.map RemoteCall.getUserByEmail ++ [RemoteCall.getUserByEmail bad]) := by
    simp only [Add, hloop, List.nil_append]
  refine ⟨hAdd, ?_, ?_⟩
  · intro ch ids
    rw [hAdd]
    simp
  · intro ch uid
    rw [hAdd]
    simp

/-- Witness for C5: the middle email fails to resolve; the first email was
resolved and cached, the invite was never issued. -/
theorem add_resolution_failure_aborts_before_invite_witness :
    Add ⟨demoClient, "CONV", some []⟩ ["a@x.com", "nobody@x.com", "b@x.com"]
      = (.err (GoErr.wrap
            ("slack.conversation.add.getuserbyemail(" ++ "nobody@x.com" ++ ")")
            (GoErr.external "users_not_found")),
          some [("a@x.com", "U1")],
          [RemoteCall.getUserByEmail "a@x.com", RemoteCall.getUserByEmail "nobody@x.com"])
    ∧ RemoteCall.inviteUsersToConversation "CONV" ["U1"]
        ∉ (Add ⟨demoClient, "CONV", some []⟩ ["a@x.com", "nobody@x.com", "b@x.com"]).2.2
    ∧ RemoteCall.kickUserFromConversation "CONV" "U1"
        ∉ (Add ⟨demoClient, "CONV", some []⟩ ["a@x.com", "nobody@x.com", "b@x.com"]).2.2 := by
  obtain ⟨h1, h2, h3⟩ := add_resolution_failure_aborts_before_invite demoClient "CONV" []
    ["a@x.com"] "nobody@x.com" ["b@x.com"] (GoErr.external "users_not_found")
    (fun email hm => by
      rw [List.mem_singleton] at hm
      subst hm
      exact ⟨demoUserA, rfl⟩)
    rfl
  exact ⟨h1, h2 "CONV" ["U1"], h3 "CONV" "U1"⟩

/-- C4: `Remove` processes emails sequentially in input order, evicting
the cache entry of each successfully removed email; on the first failure it
aborts with that error, every earlier email already removed remotely and
evicted, while the failing email and every email not reached keep exactly
the cache entries they had. -/
theorem remove_sequential_evict_abort (client : ISlackConversation) (name : String)
    (m : List (String × String)) (pre : List String) (bad : String)
    (post : List String) (err : GoErr)
    (hne : mapLen (some m) ≠ 0)
    (hnodup : pre.Nodup) (hbadpre : bad ∉ pre)
    (hpre : ∀ email ∈ pre,
      client.kickUserFromConversation name (mapLookup (some m) email) = Except.ok ())
    (hbad : client.kickUserFromConversation name (mapLookup (some m) bad)
      = Except.error err) :
    Remove ⟨client, name, some m⟩ (pre ++ bad :: post)
      = (.err (GoErr.wrap
            ("slack.conversation.remove.kickuserfromconversation(" ++ name ++ ", "
              ++ mapLookup (some m) bad ++ ")") err),
          deleteAll (some m) pre,
          pre.map (fun email =>
              RemoteCall.kickUserFromConversation name (mapLookup (some m) email))
            ++ [RemoteCall.kickUserFromConversation name (mapLookup (some m) bad)])
    ∧ (∀ email ∈ pre, mapMem (deleteAll (some m) pre) email = false)
    ∧ (∀ email, email ∉ pre →
        mapMem (deleteAll (some m) pre) email = mapMem (some m) email
        ∧ mapLookup (deleteAll (some m) pre) email = mapLookup (some m) email) := by
  refine ⟨?_, ?_, ?_⟩
  · have hloop := removeLoop_failAt client name pre bad post (some m) [] err
      hnodup hbadpre hpre hbad
    simp only [Remove]
    rw [if_neg hne, hloop]
    simp
  · intro email hmem
    exact mapMem_deleteAll_mem (some m) pre email hmem
  · intro email hmem
    exact ⟨mapMem_deleteAll_notMem (some m) pre email hmem,
      mapLookup_deleteAll_notMem (some m) pre email hmem⟩

/-- Witness for C4: removing `a@x.com` succeeds and is evicted, removing
`b@x.com` fails and keeps its entry. -/
theorem remove_sequential_evict_abort_witness :
    Remove ⟨kickFailClient, "CONV", some [("a@x.com", "U1"), ("b@x.com", "U2")]⟩
        ["a@x.com", "b@x.com"]
      = (.err (GoErr.wrap
            ("slack.conversation.remove.kickuserfromconversation(" ++ "CONV" ++ ", "
              ++ mapLookup (some [("a@x.com", "U1"), ("b@x.com", "U2")]) "b@x.com" ++ ")")
            (GoErr.external "cant_kick_user")),
          some [("b@x.com", "U2")],
          [RemoteCall.kickUserFromConversation "CONV" "U1",
           RemoteCall.kickUserFromConversation "CONV" "U2"])
    ∧ mapMem (some [("b@x.com", "U2")]) "a@x.com" = false
    ∧ mapMem (some [("b@x.com", "U2")]) "b@x.com" = true
    ∧ mapLookup (some [("b@x.com", "U2")]) "b@x.com" = "U2" := by
  obtain ⟨h1, h2, h3⟩ := remove_sequential_evict_abort kickFailClient "CONV"
    [("a@x.com", "U1"), ("b@x.com", "U2")] ["a@x.com"] "b@x.com" []
    (GoErr.external "cant_kick_user")
    (by decide) (by decide) (by decide)
    (fun email hm => by
      rw [List.mem_singleton] at hm
      subst hm
      rfl)
    rfl
  have h3b := h3 "b@x.com" (by decide)
  exact ⟨h1, h2 "a@x.com" (List.mem_cons_self _ _), h3b.1, h3b.2⟩

/-- C8: on a fresh adapter, a successful `Add` of a single email caches
`email -> resolved id` (with exactly one resolution call and one invite
call, in that order), and a subsequent `Remove` of the same email succeeds
without a prior `Get`: the guard passes and the removal is issued with the
cached identifier. -/
theorem add_then_remove_roundtrip (client : ISlackConversation) (name : String)
    (email : String) (u : SlackUser)
    (hres : client.getUserByEmail email = Except.ok u)
    (hinv : client.inviteUsersToConversation name [u.id] = Except.ok ())
    (hkick : client.kickUserFromConversation name u.id = Except.ok ()) :
    Add (New client name) [email]
      = (.ok (), some [(email, u.id)],
          [RemoteCall.getUserByEmail email,
           RemoteCall.inviteUsersToConversation name [u.id]])
    ∧ mapLookup (some [(email, u.id)]) email = u.id
    ∧ Remove ⟨client, name, some [(email, u.id)]⟩ [email]
      = (.ok (), some [],
          [RemoteCall.kickUserFromConversation name u.id]) := by
  have hlook : mapLookup (some [(email, u.id)]) email = u.id := by
    simp [mapLookup, List.find?]
  refine ⟨?_, hlook, ?_⟩
  · simp only [Add, New, addLoop, hres, mapAssign, assocInsert, List.any_nil,
      Bool.false_eq_true, if_false, List.nil_append, hinv]
    rfl
  · have hdel : mapDelete (some [(email, u.id)]) email = some [] := by
      simp [mapDelete, List.filter]
    simp only [Remove, mapLen, List.length_cons, List.length_nil]
    rw [if_neg (by simp)]
    simp only [removeLoop, hlook, hkick, hdel, List.nil_append]

/-- Witness for C8: add then remove `a@x.com` on a fresh adapter backed by
the well-behaved client. -/
theorem add_then_remove_roundtrip_witness :
    Add (New demoClient "CONV") ["a@x.com"]
      = (.ok (), some [("a@x.com", "U1")],
          [RemoteCall.getUserByEmail "a@x.com",
           RemoteCall.inviteUsersToConversation "CONV" ["U1"]])
    ∧ mapLookup (some [("a@x.com", "U1")]) "a@x.com" = "U1"
    ∧ Remove ⟨demoClient, "CONV", some [("a@x.com", "U1")]⟩ ["a@x.com"]
      = (.ok (), some [],
          [RemoteCall.kickUserFromConversation "CONV" "U1"]) :=
  add_then_remove_roundtrip demoClient "CONV" "a@x.com" demoUserA rfl rfl rfl

/-- C10: an `Add` whose invite call failed leaves the cache field a nil
map; afterwards, any `Get` that resolves at least one non-bot user and any
`Add` whose first email resolves end in the nil-map write panic instead of
returning. -/
theorem nil_cache_panics_after_failed_add (client : ISlackConversation)
    (name : String) :
    (∀ (m : List (String × String)) (emails : List String) (e : GoErr),
        (∀ email ∈ emails, ∃ u, client.getUserByEmail email = Except.ok u) →
        client.inviteUsersToConversation name (resolveIds client emails)
          = Except.error e →
        (Add ⟨client, name, some m⟩ emails).2.1 = none)
    ∧ (∀ (pages : List (List String × String)) (users : List SlackUser),
        chainRuns (pageResp client name) "" pages →
        client.getUsersInfo (pagesJoin pages) = Except.ok users →
        (∃ u ∈ users, u.isBot = false) →
        Get ⟨client, name, none⟩ pages.length
          = some (.panic nilMapMsg, none,
              chainCalls name "" pages ++ [RemoteCall.getUsersInfo (pagesJoin pages)]))
    ∧ (∀ (email : String) (rest : List String) (u : SlackUser),
        client.getUserByEmail email = Except.ok u →
        Add ⟨client, name, none⟩ (email :: rest)
          = (.panic nilMapMsg, none, [RemoteCall.getUserByEmail email])) := by
  refine ⟨?_, ?_, ?_⟩
  · intro m emails e hres hinv
    have hloop := addLoop_allOk client emails m [] [] hres
    simp only [Add, hloop, List.nil_append, hinv]
  · intro pages users hchain hinfo hnb
    have hlist := getListLoop_chainRuns ⟨client, name, none⟩ pages "" [] [] hchain
    have hploop := getEmailsLoop_none_panic users [] hnb
    simp only [Get, getListOfSlackUsernames, hlist, List.nil_append, hinfo, hploop]
  · intro email rest u hres
    simp only [Add, addLoop, hres, mapAssign, List.nil_append]

/-- Witness for C10: after the failed invite the cache is nil; a `Get`
resolving the human `U1` panics, and an `Add` resolving `a@x.com`
panics. -/
theorem nil_cache_panics_after_failed_add_witness :
    (Add ⟨inviteFailClient, "CONV", some []⟩ ["a@x.com"]).2.1 = none
    ∧ Get ⟨inviteFailClient, "CONV", none⟩ 1
      = some (.panic nilMapMsg, none,
          [RemoteCall.getUsersInConversation "CONV" "" 50,
           RemoteCall.getUsersInfo ["U1"]])
    ∧ Add ⟨inviteFailClient, "CONV", none⟩ ["a@x.com"]
      = (.panic nilMapMsg, none, [RemoteCall.getUserByEmail "a@x.com"]) := by
  obtain ⟨h1, h2, h3⟩ := nil_cache_panics_after_failed_add inviteFailClient "CONV"
  refine ⟨?_, ?_, ?_⟩
  · exact h1 [] ["a@x.com"] (GoErr.external "not_in_channel")
      (fun email hm => by
        rw [List.mem_singleton] at hm
        subst hm
        exact ⟨demoUserA, rfl⟩)
      rfl
  · exact h2 [(["U1"], "")] [demoUserA] ⟨rfl, rfl⟩ rfl
      ⟨demoUserA, List.mem_cons_self _ _, rfl⟩
  · exact h3 "a@x.com" [] demoUserA rfl

end GoSync
